import Mathlib

/-!
Verification of the SOAP server's operation dispatcher and
binary-attachment transport layer (Go sources: main.go,
handler/file.go, handler user/MTOM files).

The Go code is shallowly embedded: request bodies and header values are
lists of characters (Go strings/bytes), binary payloads are lists of
naturals below 256 (Go []byte), fallible functions return Except/Option.
-/

/-! ## String helpers (Go strings.Contains / strings.HasPrefix on char lists) -/

/-- Go strings.HasPrefix on char lists: `hasPrefixL pat s` is true iff
`pat` is an initial segment of `s`. -/
def hasPrefixL : List Char → List Char → Bool
  | [], _ => true
  | _ :: _, [] => false
  | a :: as, b :: bs => a = b && hasPrefixL as bs

/-- Go strings.Contains on char lists: `hasSubL pat s` is true iff `pat`
occurs as a contiguous substring of `s`. -/
def hasSubL (pat : List Char) : List Char → Bool
  | [] => pat.isEmpty
  | c :: t => hasPrefixL pat (c :: t) || hasSubL pat t

theorem hasSubL_of_hasPrefixL {pat s : List Char} (h : hasPrefixL pat s = true) :
    hasSubL pat s = true := by
  cases s with
  | nil =>
    cases pat with
    | nil => rfl
    | cons a as => simp [hasPrefixL] at h
  | cons c t => simp [hasSubL, h]

theorem hasSubL_of_hasPrefixL_append {a b s : List Char}
    (h : hasPrefixL (a ++ b) s = true) : hasSubL b s = true := by
  induction a generalizing s with
  | nil => exact hasSubL_of_hasPrefixL h
  | cons x as ih =>
    cases s with
    | nil => simp [hasPrefixL] at h
    | cons c t =>
      simp only [List.cons_append, hasPrefixL, Bool.and_eq_true] at h
      have := ih h.2
      simp [hasSubL, this]

theorem hasSubL_append_elim {a b s : List Char} (h : hasSubL (a ++ b) s = true) :
    hasSubL b s = true := by
  induction s with
  | nil =>
    simp only [hasSubL, List.isEmpty_eq_true, List.append_eq_nil] at h
    simp [hasSubL, h.2]
  | cons c t ih =>
    simp only [hasSubL, Bool.or_eq_true] at h
    rcases h with h | h
    · exact hasSubL_of_hasPrefixL_append h
    · have := ih h
      simp [hasSubL, this]

/-! ## Operation dispatcher (main.go, /soap handler) -/

/-- The three SOAP operations of the server. -/
inductive Op
  | getUser
  | uploadFile
  | uploadFileMTOM
deriving DecidableEq

/-- Outcome of the /soap dispatcher: transport-level method rejection,
routing to a handler together with the body that handler will read, or a
SOAP fault (code, message, detail). -/
inductive DispatchResult
  | methodNotAllowed
  | route (op : Op) (body : List Char)
  | fault (code msg detail : String)
deriving DecidableEq

/-- SOAPAction value routed to handler.GetUser (main.go line 40). -/
def actionGetUser : List Char := "http://example.com/soap/user/GetUser".data

/-- SOAPAction value routed to handler.UploadFile (main.go line 43). -/
def actionUploadFile : List Char := "http://example.com/soap/user/UploadFile".data

/-- SOAPAction value routed to handler.UploadFileMTOM (main.go line 46). -/
def actionUploadFileMTOM : List Char := "http://example.com/soap/user/UploadFileMTOM".data

/-- Body marker checked first in the sniffing fallback (main.go line 62). -/
def markerGetUser : List Char := "GetUserRequest".data

/-- Body marker checked second in the sniffing fallback (main.go line 66). -/
def markerUploadFileMTOM : List Char := "UploadFileMTOMRequest".data

/-- Body marker checked third in the sniffing fallback (main.go line 70). -/
def markerUploadFile : List Char := "UploadFileRequest".data

/-- stripQuotes from main.go lines 117-122: removes one pair of
surrounding double quotes when both ends are quoted. -/
def stripQuotes (s : List Char) : List Char :=
  if 2 ≤ s.length ∧ s.head? = some '"' ∧ s.getLast? = some '"' then
    (s.drop 1).dropLast
  else s

/-- The content-sniffing fallback of main.go lines 52-76: peek at the
first 512 bytes of the body, test the three markers in order, and hand
the chosen handler the peeked prefix (`newReadCloser(bufStr)`); if no
marker matches, emit the unknown-operation fault. -/
def fallbackDispatch (body : List Char) : DispatchResult :=
  let bufStr := body.take 512
  if hasSubL markerGetUser bufStr then .route .getUser bufStr
  else if hasSubL markerUploadFileMTOM bufStr then .route .uploadFileMTOM bufStr
  else if hasSubL markerUploadFile bufStr then .route .uploadFile bufStr
  else .fault "Client" "Unknown operation" "Could not determine SOAP operation from request"

/-- The /soap dispatcher of main.go lines 20-77: reject non-POST, route
on the quote-stripped SOAPAction when it equals a known action (the
handler then reads the untouched original body), otherwise fall back to
content sniffing. -/
def dispatch (method : String) (soapAction : List Char) (body : List Char) :
    DispatchResult :=
  if method ≠ "POST" then .methodNotAllowed
  else
    let routed : Option Op :=
      if soapAction ≠ [] then
        let sa := stripQuotes soapAction
        if sa = actionGetUser then some .getUser
        else if sa = actionUploadFile then some .uploadFile
        else if sa = actionUploadFileMTOM then some .uploadFileMTOM
        else none
      else none
    match routed with
    | some op => .route op body
    | none => fallbackDispatch body

/-- C3: for every request whose SOAPAction header, once quote-stripped,
exactly equals one of the three known action identifiers, the dispatcher
routes to the matching handler with the body passed through untouched;
routing is independent of the body content, so a conflicting body marker
cannot override the header. -/
theorem c3_action_header_routes_without_body (sa body : List Char)
    (h : stripQuotes sa = actionGetUser ∨ stripQuotes sa = actionUploadFile ∨
      stripQuotes sa = actionUploadFileMTOM) :
    dispatch "POST" sa body =
      .route (if stripQuotes sa = actionGetUser then Op.getUser
        else if stripQuotes sa = actionUploadFile then Op.uploadFile
        else Op.uploadFileMTOM) body := by
  have hne : sa ≠ [] := by
    intro hnil
    subst hnil
    have hsq : stripQuotes ([] : List Char) = [] := by decide
    rw [hsq] at h
    rcases h with h | h | h <;> exact absurd h (by decide)
  rcases h with h | h | h <;> simp +decide [dispatch, hne, h]

def c3sa : List Char := "\"http://example.com/soap/user/GetUser\"".data

def c3body : List Char := "<UploadFileRequest/>".data

/-- C3 witness: a quoted GetUser action header accompanied by a body
carrying the conflicting UploadFileRequest marker still routes to the
GetUser handler with the original body. -/
theorem c3_witness : dispatch "POST" c3sa c3body = .route Op.getUser c3body := by
  have h := c3_action_header_routes_without_body c3sa c3body (Or.inl (by decide))
  rwa [if_pos (show stripQuotes c3sa = actionGetUser by decide)] at h

def c8sa : List Char := "http://example.com/soap/user/DeleteUser".data

def c8body : List Char := "<GetUserRequest/>".data

/-- C8 counterexample: a non-empty SOAPAction matching none of the three
known identifiers does NOT produce the unknown-operation fault; the
dispatcher falls through to content sniffing and routes on the body
marker (here GetUserRequest). -/
theorem c8_counterexample :
    dispatch "POST" c8sa c8body = .route Op.getUser c8body ∧
    dispatch "POST" c8sa c8body ≠
      .fault "Client" "Unknown operation" "Could not determine SOAP operation from request" := by
  decide

/-- C8 amended: when the quote-stripped action token matches none of the
three known identifiers (including when it is non-empty), the dispatcher
falls back to content sniffing of the body; the Client fault "Unknown
operation" is emitted only when the 512-byte peeked prefix also contains
none of the three body markers. -/
theorem c8_amended_fallthrough_sniffing (sa body : List Char) (h0 : sa ≠ [])
    (h1 : stripQuotes sa ≠ actionGetUser)
    (h2 : stripQuotes sa ≠ actionUploadFile)
    (h3 : stripQuotes sa ≠ actionUploadFileMTOM) :
    dispatch "POST" sa body = fallbackDispatch body ∧
    (hasSubL markerGetUser (body.take 512) = false →
     hasSubL markerUploadFileMTOM (body.take 512) = false →
     hasSubL markerUploadFile (body.take 512) = false →
     dispatch "POST" sa body =
       .fault "Client" "Unknown operation" "Could not determine SOAP operation from request") := by
  have hd : dispatch "POST" sa body = fallbackDispatch body := by
    simp [dispatch, h0, h1, h2, h3]
  refine ⟨hd, fun m1 m2 m3 => ?_⟩
  rw [hd]
  simp [fallbackDispatch, m1, m2, m3]

def c8wsa : List Char := "x".data

def c8wbody : List Char := "hello".data

/-- C8 amended witness: action token "x" with marker-free body "hello"
ends in the unknown-operation Client fault. -/
theorem c8_amended_witness :
    dispatch "POST" c8wsa c8wbody =
      .fault "Client" "Unknown operation" "Could not determine SOAP operation from request" :=
  (c8_amended_fallthrough_sniffing c8wsa c8wbody (by decide) (by decide) (by decide)
    (by decide)).2 (by decide) (by decide) (by decide)

def c1body : List Char := markerGetUser ++ List.replicate 499 ' '

set_option maxRecDepth 20000 in
/-- C1 (divergence witness): a 513-byte body whose first 512 bytes
contain the GetUserRequest marker is dispatched to the GetUser handler,
but the body re-exposed to the handler is only the 512-byte peeked
prefix — the remaining byte of the original body is dropped, so the
handler does not read exactly the original body bytes. -/
theorem c1_fallback_truncates_long_body :
    c1body.length = 513 ∧
    dispatch "POST" [] c1body = .route Op.getUser (c1body.take 512) ∧
    c1body.take 512 ≠ c1body := by decide

/-! ## MTOM multipart parsing (handler, parseMTOMRequest and friends) -/

/-- A MIME part as produced by Go's multipart reader, before any
processing: Content-ID header value (possibly angle-bracketed),
Content-Type header value, and the raw payload bytes. -/
structure RawPart where
  contentID : String
  contentType : String
  data : List Nat
deriving DecidableEq

/-- MultipartPart from the MTOM handler: a binary attachment part with
its Content-ID already angle-bracket-stripped. -/
structure MultipartPart where
  contentID : String
  contentType : String
  data : List Nat
deriving DecidableEq

/-- The fileName/fileData fields Go's xml.Unmarshal extracts from the
UploadFileMTOMRequest element of the SOAP control part. -/
structure MTOMEnvelope where
  fileName : String
  fileData : String
deriving DecidableEq

def isAngleChar (c : Char) : Bool := c = '<' || c = '>'

/-- Go strings.Trim(contentID, "<>"): remove all leading and trailing
angle-bracket characters. -/
def trimAngle (s : String) : String :=
  String.mk (((s.data.dropWhile isAngleChar).reverse.dropWhile isAngleChar).reverse)

/-- Part classification of parseMTOMRequest: a part is the SOAP control
part when its Content-Type contains one of the XML/XOP media types. -/
def isXMLContentType (ct : String) : Bool :=
  hasSubL "application/xop+xml".data ct.data ||
  hasSubL "text/xml".data ct.data ||
  hasSubL "application/soap+xml".data ct.data

/-- The part loop of parseMTOMRequest: XML-family parts overwrite the
control-part content (last seen wins); every other part is appended, in
order, as a binary attachment with trimmed Content-ID. -/
def classifyGo : List RawPart → List MultipartPart → List Nat →
    List MultipartPart × List Nat
  | [], atts, soapPart => (atts, soapPart)
  | p :: rest, atts, soapPart =>
    if isXMLContentType p.contentType then classifyGo rest atts p.data
    else classifyGo rest (atts ++ [⟨trimAngle p.contentID, p.contentType, p.data⟩]) soapPart

/-- Splits a read multipart body into the attachment parts and the SOAP
control-part bytes (empty when no XML-family part occurs). -/
def classifyParts (ps : List RawPart) : List MultipartPart × List Nat :=
  classifyGo ps [] []

def isQuoteByte (c : Char) : Bool := c.toNat = 34 || c.toNat = 39

/-- Match a literal prefix and return the remaining characters. -/
def dropPrefixL : List Char → List Char → Option (List Char)
  | [], s => some s
  | _ :: _, [] => none
  | a :: as, b :: bs => if a = b then dropPrefixL as bs else none

/-- One attempt of the Go regexp `href=["']cid:([^"']+)["']` anchored at
the start of `s`: literal href=, an opening quote (double or single),
literal cid:, a non-empty greedy run of non-quote characters, then a
closing quote; returns the captured identifier. -/
def matchCidAt (s : List Char) : Option (List Char) :=
  match dropPrefixL "href=".data s with
  | none => none
  | some s1 =>
    match s1 with
    | [] => none
    | q :: s2 =>
      if isQuoteByte q then
        match dropPrefixL "cid:".data s2 with
        | none => none
        | some s3 =>
          match s3.takeWhile (fun c => !isQuoteByte c), s3.dropWhile (fun c => !isQuoteByte c) with
          | [], _ => none
          | _ :: _, [] => none
          | idPart, r :: _ => if isQuoteByte r then some idPart else none
      else none

/-- regexp.FindStringSubmatch: the leftmost match wins; scan successive
start positions until `matchCidAt` succeeds. -/
def findCid : List Char → Option (List Char)
  | [] => none
  | c :: t =>
    match matchCidAt (c :: t) with
    | some id => some id
    | none => findCid t

/-- XOP-reference extraction of parseMTOMSOAPEnvelope: only when the
fileData text contains an Include marker is the regexp run, and at most
the first match's identifier is collected. -/
def extractXopRefs (fileData : String) : List String :=
  if hasSubL "<xop:Include".data fileData.data || hasSubL "Include".data fileData.data then
    match findCid fileData.data with
    | some id => [String.mk id]
    | none => []
  else []

/-- parseMTOMSOAPEnvelope: unmarshal the control part (the XML decoder —
Go's xml.Unmarshal — is passed in as a function), then extract the XOP
references from the fileData text. -/
def parseMTOMSOAPEnvelope (xmlDecode : List Nat → Except String MTOMEnvelope)
    (soapPart : List Nat) : Except String (String × List String) :=
  match xmlDecode soapPart with
  | .error e => .error ("XML parse error: " ++ e)
  | .ok env => .ok (env.fileName, extractXopRefs env.fileData)

/-- The inner scan of the XOP resolution loop: first attachment whose
(trimmed) Content-ID equals the reference, in original part order. -/
def findFirstPart (x : String) : List MultipartPart → Option MultipartPart
  | [] => none
  | p :: t => if p.contentID = x then some p else findFirstPart x t

/-- The XOP resolution loop of parseMTOMRequest: for each extracted
reference, overwrite the accumulated file data with the first matching
attachment's payload; a reference with no matching attachment aborts
with the reference-not-found error. -/
def resolveXopRefs (refs : List String) (parts : List MultipartPart) (acc : List Nat) :
    Except String (List Nat) :=
  match refs with
  | [] => .ok acc
  | r :: rs =>
    match findFirstPart r parts with
    | some p => resolveXopRefs rs parts p.data
    | none => .error ("XOP reference not found: " ++ r)

/-- parseMTOMRequest (post multipart split): classify the parts, parse
the SOAP control part, resolve the XOP references against the
attachments, and reject an empty resulting payload. -/
def parseMTOMRequest (xmlDecode : List Nat → Except String MTOMEnvelope)
    (rawParts : List RawPart) : Except String (String × List Nat) :=
  let c := classifyParts rawParts
  match parseMTOMSOAPEnvelope xmlDecode c.2 with
  | .error e => .error ("failed to parse SOAP envelope: " ++ e)
  | .ok (fileName, refs) =>
    match resolveXopRefs refs c.1 [] with
    | .error e => .error e
    | .ok fileData =>
      if fileData.length = 0 then .error "no file data found in MTOM request"
      else .ok (fileName, fileData)

/-- Outcome of the UploadFileMTOM handler, with the filesystem write and
response rendering abstracted into the `stored` constructor. -/
inductive HandlerOutcome
  | fault (code msg detail : String)
  | stored (fileName : String) (data : List Nat)
deriving DecidableEq

/-- The multipart/related branch of the UploadFileMTOM handler: a parse
error becomes the Client fault "Invalid MTOM request" carrying the parse
error as detail; then the fileName/fileData validations run. -/
def uploadFileMTOMMultipart (xmlDecode : List Nat → Except String MTOMEnvelope)
    (rawParts : List RawPart) : HandlerOutcome :=
  match parseMTOMRequest xmlDecode rawParts with
  | .error e => .fault "Client" "Invalid MTOM request" e
  | .ok (fileName, fileData) =>
    if fileName = "" then .fault "Client" "Invalid input" "File name is required"
    else if fileData.length = 0 then .fault "Client" "Invalid input" "File data is required"
    else .stored fileName fileData

theorem findFirstPart_eq_none {x : String} {parts : List MultipartPart}
    (h : ∀ p ∈ parts, p.contentID ≠ x) : findFirstPart x parts = none := by
  induction parts with
  | nil => rfl
  | cons p t ih =>
    have hp : p.contentID ≠ x := h p (by simp)
    simp only [findFirstPart, if_neg hp]
    exact ih fun q hq => h q (by simp [hq])

theorem findFirstPart_append {x : String} {pre post : List MultipartPart}
    {p : MultipartPart} (hpre : ∀ q ∈ pre, q.contentID ≠ x) (hx : p.contentID = x) :
    findFirstPart x (pre ++ p :: post) = some p := by
  induction pre with
  | nil => simp [findFirstPart, hx]
  | cons q t ih =>
    have hq : q.contentID ≠ x := hpre q (by simp)
    simp only [List.cons_append, findFirstPart, if_neg hq]
    exact ih fun r hr => hpre r (by simp [hr])

theorem findFirstPart_mem {x : String} {parts : List MultipartPart} {p : MultipartPart}
    (h : findFirstPart x parts = some p) : p ∈ parts := by
  induction parts with
  | nil => simp [findFirstPart] at h
  | cons q t ih =>
    by_cases hq : q.contentID = x
    · simp only [findFirstPart, if_pos hq, Option.some.injEq] at h
      simp [h.symm]
    · simp only [findFirstPart, if_neg hq] at h
      simp [ih h]

theorem classifyGo_soap_of_no_xml {ps : List RawPart}
    (h : ∀ p ∈ ps, isXMLContentType p.contentType = false) :
    ∀ atts soapPart, (classifyGo ps atts soapPart).2 = soapPart := by
  induction ps with
  | nil => intro atts soapPart; rfl
  | cons p t ih =>
    intro atts soapPart
    have hp : isXMLContentType p.contentType = false := h p (by simp)
    simp only [classifyGo, hp, Bool.false_eq_true, if_neg (by simp : ¬False)]
    exact ih (fun q hq => h q (by simp [hq])) _ _

theorem classifyGo_last_xml {post : List RawPart} {p : RawPart}
    (hxml : isXMLContentType p.contentType = true)
    (hpost : ∀ q ∈ post, isXMLContentType q.contentType = false) :
    ∀ (pre : List RawPart) atts soapPart,
      (classifyGo (pre ++ p :: post) atts soapPart).2 = p.data := by
  intro pre
  induction pre with
  | nil =>
    intro atts soapPart
    simp only [List.nil_append, classifyGo, hxml, if_pos trivial]
    exact classifyGo_soap_of_no_xml hpost _ _
  | cons q t ih =>
    intro atts soapPart
    simp only [List.cons_append, classifyGo]
    by_cases hq : isXMLContentType q.contentType = true
    · simp only [hq, if_pos trivial]
      exact ih _ _
    · simp only [eq_self_iff_true, hq, if_neg]
      exact ih _ _

theorem resolveXopRefs_ok_cases {refs : List String} {parts : List MultipartPart} :
    ∀ {acc d : List Nat}, resolveXopRefs refs parts acc = .ok d →
      d = acc ∨ ∃ p, p ∈ parts ∧ d = p.data := by
  induction refs with
  | nil =>
    intro acc d h
    simp only [resolveXopRefs, Except.ok.injEq] at h
    exact Or.inl h.symm
  | cons r rs ih =>
    intro acc d h
    simp only [resolveXopRefs] at h
    rcases hf : findFirstPart r parts with _ | p
    · rw [hf] at h; cases h
    · rw [hf] at h
      rcases ih h with hd | ⟨q, hq, hdq⟩
      · exact Or.inr ⟨p, findFirstPart_mem hf, hd⟩
      · exact Or.inr ⟨q, hq, hdq⟩

/-- C5: when the control part references identifier `x` and no attachment
part's (angle-bracket-stripped) Content-ID equals `x`, the MTOM handler
fails with a Client-classified fault whose detail is the
reference-not-found message naming `x` (literal source text
"XOP reference not found: x"). -/
theorem c5_unresolved_reference_client_fault
    (xmlDecode : List Nat → Except String MTOMEnvelope) (rawParts : List RawPart)
    (env : MTOMEnvelope) (x : String)
    (hdec : xmlDecode (classifyParts rawParts).2 = .ok env)
    (href : extractXopRefs env.fileData = [x])
    (hno : ∀ p ∈ (classifyParts rawParts).1, p.contentID ≠ x) :
    uploadFileMTOMMultipart xmlDecode rawParts =
      .fault "Client" "Invalid MTOM request" ("XOP reference not found: " ++ x) := by
  have hf : findFirstPart x (classifyParts rawParts).1 = none := findFirstPart_eq_none hno
  simp only [uploadFileMTOMMultipart, parseMTOMRequest, parseMTOMSOAPEnvelope, hdec, href,
    resolveXopRefs, hf]

def c5decode : List Nat → Except String MTOMEnvelope :=
  fun _ => .ok ⟨"f.bin", "<xop:Include href=\"cid:abc\"/>"⟩

def c5parts : List RawPart := [⟨"<xyz>", "application/octet-stream", [1, 2]⟩]

/-- C5 witness: a control part referencing cid:abc while the only
attachment's Content-ID is xyz yields the Client fault with the
reference-not-found detail for abc. -/
theorem c5_witness :
    uploadFileMTOMMultipart c5decode c5parts =
      .fault "Client" "Invalid MTOM request" ("XOP reference not found: " ++ "abc") :=
  c5_unresolved_reference_client_fault c5decode c5parts ⟨"f.bin", "<xop:Include href=\"cid:abc\"/>"⟩
    "abc" rfl (by decide) (by decide)

/-- C6: when the referenced identifier matches an attachment, resolution
returns exactly that attachment's payload, verbatim; with several
attachments sharing the identifier the first one in original part order
wins. -/
theorem c6_first_match_verbatim (x : String) (pre post : List MultipartPart)
    (p : MultipartPart) (hx : p.contentID = x) (hpre : ∀ q ∈ pre, q.contentID ≠ x) :
    resolveXopRefs [x] (pre ++ p :: post) [] = .ok p.data := by
  have hf := @findFirstPart_append x pre post p hpre hx
  simp only [resolveXopRefs, hf]

def c6pre : MultipartPart := ⟨"b", "application/octet-stream", [9]⟩

def c6hit : MultipartPart := ⟨"a", "application/octet-stream", [1, 2, 3]⟩

def c6dup : MultipartPart := ⟨"a", "application/octet-stream", [7, 7]⟩

/-- C6 witness: with two attachments both named "a", resolution of "a"
returns the first one's payload [1, 2, 3] unchanged. -/
theorem c6_witness : resolveXopRefs ["a"] [c6pre, c6hit, c6dup] [] = .ok [1, 2, 3] :=
  c6_first_match_verbatim "a" [c6pre] [c6dup] c6hit rfl (by decide)

/-- Modelled from the spec: the Envelope Codec decode step performed by
the Go standard library (xml.Unmarshal) on the control part; an absent
control part leaves the content empty, a structural mismatch such as an
empty document is a decode error (the library reports EOF). Only its
behavior on the empty input is relied upon. -/
def c7decode : List Nat → Except String MTOMEnvelope := fun _ => Except.error "EOF"

def c7parts : List RawPart := [⟨"a1", "application/octet-stream", [1, 2, 3]⟩]

/-- C7 counterexample: a multipart message with zero XML-family parts
does not fail with "missing control part"; the failure is the wrapped
XML parse error produced by decoding the empty control content. -/
theorem c7_counterexample :
    parseMTOMRequest c7decode c7parts =
      .error "failed to parse SOAP envelope: XML parse error: EOF" ∧
    parseMTOMRequest c7decode c7parts ≠ .error "missing control part" := by
  have h1 : parseMTOMRequest c7decode c7parts =
      .error "failed to parse SOAP envelope: XML parse error: EOF" := by rfl
  refine ⟨h1, ?_⟩
  rw [h1]
  intro hcontra
  exact (by decide :
      ("failed to parse SOAP envelope: XML parse error: EOF" : String) ≠
        "missing control part")
    (Except.error.inj hcontra)

/-- C7 amended: with zero XML-family parts the control content stays
empty and parsing fails with the Client-classified wrapped XML parse
error of the decoder on empty input (there is no dedicated
"missing control part" message); when several XML-family parts are
present, the last one seen is kept as the control part. -/
theorem c7_amended_control_part_selection :
    (∀ ps : List RawPart, (∀ p ∈ ps, isXMLContentType p.contentType = false) →
      (classifyParts ps).2 = []) ∧
    (∀ (xmlDecode : List Nat → Except String MTOMEnvelope) (ps : List RawPart) (e : String),
      (∀ p ∈ ps, isXMLContentType p.contentType = false) →
      xmlDecode [] = .error e →
      parseMTOMRequest xmlDecode ps =
        .error ("failed to parse SOAP envelope: " ++ ("XML parse error: " ++ e))) ∧
    (∀ (pre post : List RawPart) (p : RawPart),
      isXMLContentType p.contentType = true →
      (∀ q ∈ post, isXMLContentType q.contentType = false) →
      (classifyParts (pre ++ p :: post)).2 = p.data) := by
  refine ⟨?_, ?_, ?_⟩
  · intro ps h
    exact classifyGo_soap_of_no_xml h [] []
  · intro xmlDecode ps e h hdec
    have hsoap : (classifyParts ps).2 = [] := classifyGo_soap_of_no_xml h [] []
    simp only [parseMTOMRequest, parseMTOMSOAPEnvelope, hsoap, hdec]
  · intro pre post p hxml hpost
    exact classifyGo_last_xml hxml hpost pre [] []

def c7xml1 : RawPart := ⟨"", "text/xml", [60, 97, 62]⟩

def c7xml2 : RawPart := ⟨"", "application/xop+xml", [60, 98, 62]⟩

/-- C7 amended witness: with two XML-family parts the later one's bytes
become the control content. -/
theorem c7_witness : (classifyParts [c7xml1, c7xml2]).2 = [60, 98, 62] :=
  c7_amended_control_part_selection.2.2 [c7xml1] [] c7xml2 (by decide) (by decide)

def c4decode : List Nat → Except String MTOMEnvelope := fun _ => .ok ⟨"f.txt", "QUJD"⟩

def c4parts : List RawPart := [⟨"<abc>", "application/octet-stream", [65, 66, 67]⟩]

/-- C4 counterexample: a control part whose fileData text "QUJD" (valid
base64, no Include marker) is never decoded as inline binary in the
multipart path; parsing fails with "no file data found in MTOM request"
instead. -/
theorem c4_counterexample :
    hasSubL "Include".data "QUJD".data = false ∧
    hasSubL "<xop:Include".data "QUJD".data = false ∧
    parseMTOMRequest c4decode c4parts = .error "no file data found in MTOM request" := by
  exact ⟨by decide, by decide, by rfl⟩

/-- C4 amended: in the binary-optimized multipart path, a control part
whose fileData text contains no Include marker yields no extracted
references, and the handler fails with the Client fault carrying
"no file data found in MTOM request" — the text is never handed to the
inline-binary (base64) codec on this path. -/
theorem c4_amended_no_marker_fails
    (xmlDecode : List Nat → Except String MTOMEnvelope) (ps : List RawPart)
    (env : MTOMEnvelope)
    (hdec : xmlDecode (classifyParts ps).2 = .ok env)
    (hnom : hasSubL "Include".data env.fileData.data = false) :
    uploadFileMTOMMultipart xmlDecode ps =
      .fault "Client" "Invalid MTOM request" "no file data found in MTOM request" := by
  have hx : hasSubL "<xop:Include".data env.fileData.data = false := by
    by_contra hc
    rw [Bool.not_eq_false] at hc
    have hsplit : "<xop:Include".data = "<xop:".data ++ "Include".data := by decide
    rw [hsplit] at hc
    rw [hasSubL_append_elim hc] at hnom
    cases hnom
  have hrefs : extractXopRefs env.fileData = [] := by
    simp [extractXopRefs, hnom, hx]
  simp only [uploadFileMTOMMultipart, parseMTOMRequest, parseMTOMSOAPEnvelope, hdec, hrefs,
    resolveXopRefs, List.length_nil]
  rfl

/-- C4 amended witness: the concrete no-marker control part from the
counterexample reaches the Client fault through the amended theorem. -/
theorem c4_witness :
    uploadFileMTOMMultipart c4decode c4parts =
      .fault "Client" "Invalid MTOM request" "no file data found in MTOM request" :=
  c4_amended_no_marker_fails c4decode c4parts ⟨"f.txt", "QUJD"⟩ rfl (by decide)

/-- C10: reference extraction yields at most one identifier (only the
first regexp match is collected), and every successful parse of a
multipart request returns the payload of exactly one attachment part. -/
theorem c10_at_most_one_reference :
    (∀ fd : String, (extractXopRefs fd).length ≤ 1) ∧
    (∀ (xmlDecode : List Nat → Except String MTOMEnvelope) (ps : List RawPart)
        (fn : String) (d : List Nat),
      parseMTOMRequest xmlDecode ps = .ok (fn, d) →
      ∃ p, p ∈ (classifyParts ps).1 ∧ d = p.data) := by
  constructor
  · intro fd
    unfold extractXopRefs
    rcases hif : (hasSubL "<xop:Include".data fd.data || hasSubL "Include".data fd.data) with _ | _
    · simp
    · rcases hfind : findCid fd.data with _ | id <;> simp [hfind]
  · intro xmlDecode ps fn d h
    simp only [parseMTOMRequest] at h
    rcases he : parseMTOMSOAPEnvelope xmlDecode (classifyParts ps).2 with e | ⟨fn', refs⟩
    · rw [he] at h; cases h
    · rw [he] at h
      dsimp only at h
      rcases hr : resolveXopRefs refs (classifyParts ps).1 [] with e2 | fd2
      · rw [hr] at h; cases h
      · rw [hr] at h
        dsimp only at h
        by_cases hlen : fd2.length = 0
        · rw [if_pos hlen] at h; cases h
        · rw [if_neg hlen] at h
          have hd : fd2 = d := by
            injection h with h'
            exact congrArg Prod.snd h'
          subst hd
          rcases resolveXopRefs_ok_cases hr with hnil | hex
          · rw [hnil] at hlen
            simp at hlen
          · exact hex

def c10decode : List Nat → Except String MTOMEnvelope :=
  fun _ => .ok ⟨"f", "<xop:Include href=\"cid:a\"/>"⟩

def c10parts : List RawPart := [⟨"<a>", "application/octet-stream", [5, 6]⟩]

/-- C10 witness: the concrete single-reference request resolves to the
payload of one attachment part. -/
theorem c10_witness : ∃ p, p ∈ (classifyParts c10parts).1 ∧ [5, 6] = p.data :=
  c10_at_most_one_reference.2 c10decode c10parts "f" [5, 6] (by rfl)

/-! ## User lookup (handler user file: userDB, GetUser) -/

/-- User record from the handler package. -/
structure User where
  id : String
  name : String
  email : String
  createdAt : String
deriving DecidableEq

/-- The mock user database, a package-level table keyed by user id. -/
def userDB : List (String × User) :=
  [("1", ⟨"1", "홍길동", "hong@example.com", "2024-01-01"⟩),
   ("2", ⟨"2", "김철수", "kim@example.com", "2024-01-15"⟩),
   ("3", ⟨"3", "이영희", "lee@example.com", "2024-02-01"⟩)]

/-- Go map indexing `userDB[userID]` with its ok flag, as an association
lookup. -/
def dbLookup (db : List (String × User)) (id : String) : Option User :=
  match db with
  | [] => none
  | (k, u) :: t => if k = id then some u else dbLookup t id

/-- Result of the GetUser handler body: the response record or the
User-not-found Client fault. -/
inductive GetUserOutcome
  | response (u : User)
  | fault (code msg detail : String)
deriving DecidableEq

/-- The GetUser handler: look up the requested id in the table and build
the response or the Client fault; the table is read, never written, so
the outgoing state equals the incoming one. -/
def getUserOp (db : List (String × User)) (id : String) :
    GetUserOutcome × List (String × User) :=
  match dbLookup db id with
  | none => (.fault "Client" "User not found" ("User with ID " ++ id ++ " not found"), db)
  | some u => (.response u, db)

/-- A request hitting the /soap endpoint, for state threading: only the
operation identity and (for GetUser) its id matter to the user table. -/
inductive Request
  | getUser (id : String)
  | uploadFile (fileName fileData : String)
  | uploadFileMTOM (fileName : String) (fileData : List Nat)

/-- State transition of one request on the user table: GetUser threads
the table through its handler; the upload handlers never touch it. -/
def stepRequest (db : List (String × User)) (r : Request) : List (String × User) :=
  match r with
  | .getUser id => (getUserOp db id).2
  | .uploadFile _ _ => db
  | .uploadFileMTOM _ _ => db

/-- Run a sequence of requests against the user table. -/
def runRequests (db : List (String × User)) (rs : List Request) : List (String × User) :=
  rs.foldl stepRequest db

theorem stepRequest_const (db : List (String × User)) (r : Request) :
    stepRequest db r = db := by
  cases r with
  | getUser id =>
    simp only [stepRequest, getUserOp]
    rcases dbLookup db id with _ | u <;> rfl
  | uploadFile fn fd => rfl
  | uploadFileMTOM fn fd => rfl

/-- C9: the user table is never mutated — after any sequence of requests
it equals the initial table — and hence the GetUser operation applied to
the same identifier returns the same outcome (same record or same
user-not-found Client fault) at any point of any request sequence. -/
theorem c9_userDB_immutable :
    (∀ rs : List Request, runRequests userDB rs = userDB) ∧
    (∀ (rs rs' : List Request) (id : String),
      (getUserOp (runRequests userDB rs) id).1 = (getUserOp (runRequests userDB rs') id).1) := by
  have hrun : ∀ (rs : List Request) (db : List (String × User)), runRequests db rs = db := by
    intro rs
    induction rs with
    | nil => intro db; rfl
    | cons r t ih =>
      intro db
      simp only [runRequests, List.foldl_cons, stepRequest_const]
      exact ih db
  refine ⟨fun rs => hrun rs userDB, fun rs rs' id => ?_⟩
  rw [hrun rs userDB, hrun rs' userDB]

/-! ## Inline-binary codec (Go encoding/base64, StdEncoding, as used by
the UploadFile handler and the non-multipart MTOM fallback) -/

/-- The standard base64 alphabet: sextet index to character
(A-Z, a-z, 0-9, +, /). -/
def b64charOf (n : Nat) : Char :=
  if n < 26 then Char.ofNat (65 + n)
  else if n < 52 then Char.ofNat (97 + (n - 26))
  else if n < 62 then Char.ofNat (48 + (n - 52))
  else if n = 62 then '+'
  else '/'

/-- Inverse alphabet: character back to sextet index when valid. -/
def b64decChar (c : Char) : Option Nat :=
  if 65 ≤ c.toNat ∧ c.toNat ≤ 90 then some (c.toNat - 65)
  else if 97 ≤ c.toNat ∧ c.toNat ≤ 122 then some (c.toNat - 97 + 26)
  else if 48 ≤ c.toNat ∧ c.toNat ≤ 57 then some (c.toNat - 48 + 52)
  else if c.toNat = 43 then some 62
  else if c.toNat = 47 then some 63
  else none

/-- base64.StdEncoding.EncodeToString on a byte list: each 3-byte group
becomes 4 alphabet characters; a trailing 1- or 2-byte remainder is
padded with = to a full 4-character group. -/
def b64encode : List Nat → List Char
  | a :: b :: c :: t =>
    b64charOf (a / 4) :: b64charOf (a % 4 * 16 + b / 16) ::
      b64charOf (b % 16 * 4 + c / 64) :: b64charOf (c % 64) :: b64encode t
  | [a, b] =>
    [b64charOf (a / 4), b64charOf (a % 4 * 16 + b / 16), b64charOf (b % 16 * 4), '=']
  | [a] => [b64charOf (a / 4), b64charOf (a % 4 * 16), '=', '=']
  | [] => []

/-- base64.StdEncoding.DecodeString: strict 4-character groups; padding
= is accepted only in the last group (one = for a 2-byte remainder, two
for a 1-byte remainder); any character outside the alphabet, a short
group, or misplaced padding is a decode error (none). -/
def b64decode : List Char → Option (List Nat)
  | [] => some []
  | c1 :: c2 :: c3 :: c4 :: t =>
    match b64decChar c1, b64decChar c2 with
    | some s1, some s2 =>
      if c3 = '=' then
        if c4 = '=' ∧ t = [] then some [s1 * 4 + s2 / 16] else none
      else
        match b64decChar c3 with
        | some s3 =>
          if c4 = '=' then
            if t = [] then some [s1 * 4 + s2 / 16, s2 % 16 * 16 + s3 / 4] else none
          else
            match b64decChar c4 with
            | some s4 =>
              match b64decode t with
              | some rest =>
                some ((s1 * 4 + s2 / 16) :: (s2 % 16 * 16 + s3 / 4) :: (s3 % 4 * 64 + s4) :: rest)
              | none => none
            | none => none
        | none => none
    | _, _ => none
  | _ => none

theorem b64decChar_charOf_fin : ∀ n : Fin 64, b64decChar (b64charOf n.val) = some n.val := by
  decide

theorem b64charOf_ne_pad_fin : ∀ n : Fin 64, b64charOf n.val ≠ '=' := by decide

theorem b64decChar_charOf {n : Nat} (h : n < 64) : b64decChar (b64charOf n) = some n :=
  b64decChar_charOf_fin ⟨n, h⟩

theorem b64charOf_ne_pad {n : Nat} (h : n < 64) : b64charOf n ≠ '=' :=
  b64charOf_ne_pad_fin ⟨n, h⟩

theorem b64_round_trip : ∀ (bs : List Nat), (∀ x ∈ bs, x < 256) →
    b64decode (b64encode bs) = some bs
  | [], _ => rfl
  | [a], h => by
    have ha : a < 256 := h a (by simp)
    have d1 := b64decChar_charOf (show a / 4 < 64 by omega)
    have d2 := b64decChar_charOf (show a % 4 * 16 < 64 by omega)
    simp [b64encode, b64decode, d1, d2]
    omega
  | [a, b], h => by
    have ha : a < 256 := h a (by simp)
    have hb : b < 256 := h b (by simp)
    have d1 := b64decChar_charOf (show a / 4 < 64 by omega)
    have d2 := b64decChar_charOf (show a % 4 * 16 + b / 16 < 64 by omega)
    have d3 := b64decChar_charOf (show b % 16 * 4 < 64 by omega)
    have p3 := b64charOf_ne_pad (show b % 16 * 4 < 64 by omega)
    simp [b64encode, b64decode, d1, d2, d3, p3]
    omega
  | a :: b :: c :: t, h => by
    have ha : a < 256 := h a (by simp)
    have hb : b < 256 := h b (by simp)
    have hc : c < 256 := h c (by simp)
    have ih := b64_round_trip t (fun x hx => h x (by simp [hx]))
    have d1 := b64decChar_charOf (show a / 4 < 64 by omega)
    have d2 := b64decChar_charOf (show a % 4 * 16 + b / 16 < 64 by omega)
    have d3 := b64decChar_charOf (show b % 16 * 4 + c / 64 < 64 by omega)
    have d4 := b64decChar_charOf (show c % 64 < 64 by omega)
    have p3 := b64charOf_ne_pad (show b % 16 * 4 + c / 64 < 64 by omega)
    have p4 := b64charOf_ne_pad (show c % 64 < 64 by omega)
    simp [b64encode, b64decode, d1, d2, d3, d4, p3, p4, ih]
    omega

/-- C2: the inline-binary codec is a faithful round trip — for every
byte sequence, including the empty sequence and non-UTF8 byte values,
decoding the base64 encoding yields exactly the original bytes. -/
theorem c2_inline_codec_round_trip (bs : List Nat) (h : ∀ x ∈ bs, x < 256) :
    b64decode (b64encode bs) = some bs :=
  b64_round_trip bs h

/-- C2 witness: a concrete round trip over bytes including 0 and 255
(not valid UTF8) and a remainder group. -/
theorem c2_witness : b64decode (b64encode [0, 255, 77, 10]) = some [0, 255, 77, 10] :=
  c2_inline_codec_round_trip [0, 255, 77, 10] (by decide)
